import Mathlib

/-!
Shallow embedding of `run_prim.py`, a benchmark orchestration harness:
pass/fail classification of captured output, host-binary selection,
resilient dataset download with retry/backoff and curl fallback,
archive extraction with a two-stage fallback pipeline, the idempotent
"ensure BFS data" acquisition pipeline, and the per-benchmark
orchestrator loop.  Stateful parts (filesystem, network, subprocesses)
are modelled by explicit state records and outcome oracles; Python
exceptions are modelled with `Except`.
-/

namespace RunPrim

/-- Python `str.lower()` (ASCII case folding, which is all that the
hex digests and binary names in this program use). -/
def strLower (s : String) : String := ⟨s.toList.map Char.toLower⟩

/-- Python `str.upper()`. -/
def strUpper (s : String) : String := ⟨s.toList.map Char.toUpper⟩

/-- Substring containment on character lists: some drop of `s` has `pat`
as a prefix.  This is Python's `pat in s`. -/
def listHasSub (pat s : List Char) : Bool :=
  (List.range (s.length + 1)).any (fun i => pat.isPrefixOf (s.drop i))

/-- Python's `pat in s` on strings. -/
def hasSub (s pat : String) : Bool := listHasSub pat.toList s.toList

/-!  ## Outcome classifier (`classify`, run_prim.py lines 91-98) -/

/-- `classify(output, rc)`: nonzero exit code fails with `rc=<rc>`;
otherwise an `ERROR` marker fails; otherwise an `OK` marker passes;
otherwise fail with `no OK/ERROR marker`.  Direct transcription of the
source. -/
def classify (output : String) (rc : Int) : Bool × String :=
  if rc ≠ 0 then (false, "rc=" ++ toString rc)
  else if hasSub output "ERROR" then (false, "found ERROR")
  else if hasSub output "OK" then (true, "found OK")
  else (false, "no OK/ERROR marker")

/-!  ## Artifact locator (`pick_host_binary`, run_prim.py lines 55-88) -/

/-- The fixed denylist `EXCLUDE_BIN_NAMES` from the source. -/
def EXCLUDE_BIN_NAMES : List String :=
  ["dpu_code", "dpu", "dpu_host", "gemv_dpu", "trns_dpu", "bfs_dpu", "nw_dpu"]

/-- A `bin/` directory entry: file name paired with whether it is an
executable regular file (`is_executable`). -/
abbrev BinEntry := String × Bool

/-- `is_executable(bin_dir / n)`: an entry named `n` exists and is an
executable regular file. -/
def isExecIn (entries : List BinEntry) (n : String) : Bool :=
  entries.any (fun e => e.1 == n && e.2)

/-- Code-point lexicographic order on character lists (Python string
`<`). -/
def listLtChars : List Char → List Char → Bool
  | [], [] => false
  | [], _ :: _ => true
  | _ :: _, [] => false
  | a :: as, b :: bs =>
    if a < b then true else if b < a then false else listLtChars as bs

/-- Python string `<`. -/
def strLt (a b : String) : Bool := listLtChars a.toList b.toList

/-- Insert into a name-sorted list, keeping ascending order (models
Python `sorted(bin_dir.iterdir())`, which orders by name within one
directory). -/
def insertByName (x : BinEntry) : List BinEntry → List BinEntry
  | [] => [x]
  | y :: ys => if strLt y.1 x.1 then y :: insertByName x ys else x :: y :: ys

/-- Name-ascending sort of the directory listing. -/
def sortByName (l : List BinEntry) : List BinEntry :=
  l.foldr insertByName []

/-- `pick_host_binary(bench_dir)`.  The `bin/` directory is `none` when
absent, otherwise the list of entries.  Returns the chosen file name. -/
def pick_host_binary (benchName : String) (binDir : Option (List BinEntry)) :
    Option String :=
  match binDir with
  | none => none
  | some entries =>
    let preferred := ["host_code", "host", strLower benchName ++ "_host"]
    match preferred.find? (fun n => isExecIn entries n) with
    | some n => some n
    | none =>
      let cands := (sortByName entries).filter (fun e =>
        e.2 && (!(EXCLUDE_BIN_NAMES.contains e.1)
          && !(hasSub (strLower e.1) "dpu" && !hasSub (strLower e.1) "host")))
      match cands.find? (fun e => hasSub (strLower e.1) "host") with
      | some e => some e.1
      | none => cands.head?.map (fun e => e.1)

/-- The artifact-locator algorithm as the specification words it:
absent `bin/` gives absent; else the first preferred name that exists
and is executable; else filter the name-sorted executables by the
denylist and then by the dpu-without-host rule, and return the first
candidate containing `host`, else the first candidate, else absent. -/
def locateSpec (benchName : String) (binDir : Option (List BinEntry)) :
    Option String :=
  match binDir with
  | none => none
  | some entries =>
    match ["host_code", "host", strLower benchName ++ "_host"].find?
        (fun n => isExecIn entries n) with
    | some n => some n
    | none =>
      let execs := (sortByName entries).filter (fun e => e.2)
      let noDeny := execs.filter (fun e => !(EXCLUDE_BIN_NAMES.contains e.1))
      let cands := noDeny.filter (fun e =>
        !(hasSub (strLower e.1) "dpu") || hasSub (strLower e.1) "host")
      match cands.find? (fun e => hasSub (strLower e.1) "host") with
      | some e => some e.1
      | none => cands.head?.map (fun e => e.1)

/-!  ## Download with retry/backoff (`download_file`, run_prim.py lines 132-226)

The network and the curl subprocess are modelled by oracles: for every
URL index and attempt index, the outcome the `try_urllib` attempt would
have (success, an HTTP error with its status code, a network/timeout
error, or some other exception), plus curl availability and curl's exit
code per URL.  The function's observable behaviour is a trace of events
(temp-file removal, writes to the temp file, the rename onto the
destination, sleeps, which URLs and mechanisms were tried) together
with an `Except` result: `ok` when some attempt returned, `error e`
when the Python code raises `e` out of `download_file`. -/

/-- Exceptions that can be recorded in `last_err` inside
`download_file`: HTTP errors, network/timeout errors, other exceptions
from an attempt, and curl failures. -/
inductive ExcBase where
  | httpError (code : Nat)
  | netError (id : Nat)
  | otherExc (id : Nat)
  | curlFailed (rc : Nat) (out : String)
deriving DecidableEq, Repr

/-- Python exceptions this program can raise past its functions: a
`last_err`-style exception re-raised as-is, the terminal
`RuntimeError("download failed for all URLs: ...")`, or the
`RuntimeError` raised by `extract_tar_zst`. -/
inductive Exc where
  | base (e : ExcBase)
  | allUrlsFailed (last : Option ExcBase)
  | extractError (msg : String)
deriving DecidableEq, Repr

/-- Outcome of one `try_urllib(url)` attempt, as presented by the
network oracle. -/
inductive AttemptOutcome where
  | success
  | httpError (code : Nat)
  | netError (id : Nat)
  | otherExc (id : Nat)
deriving DecidableEq, Repr

/-- `transient = {429, 502, 503, 504}`. -/
def transientCodes : List Nat := [429, 502, 503, 504]

def isTransientCode (c : Nat) : Bool := transientCodes.contains c

/-- An outcome the retry loop treats as transient: a transient-coded
HTTP error or any network/timeout error. -/
def isTransientOutcome : AttemptOutcome → Bool
  | .httpError c => isTransientCode c
  | .netError _ => true
  | _ => false

/-- An outcome that is a non-transient HTTP error (the re-raise case). -/
def isNonTransientHttp : AttemptOutcome → Bool
  | .httpError c => !isTransientCode c
  | _ => false

/-- Observable filesystem/process events of `download_file`. -/
inductive DlEvent where
  | tryUrl (u : Nat)
  | rmTmp
  | writeTmp
  | renameTmpDest
  | sleep (s : Nat)
  | curlAttempt (u : Nat)
deriving DecidableEq, Repr

/-- Trace of one `try_urllib` call: it always removes the stale temp
file first; transfer bytes go to the temp file only; only the success
case reaches `tmp.replace(dest)` (the rename), after the full body has
been written.  An HTTP error is raised by `urlopen` before any write. -/
def tryUrllibTrace : AttemptOutcome → List DlEvent
  | .success => [.rmTmp, .writeTmp, .renameTmpDest]
  | .httpError _ => [.rmTmp]
  | .netError _ => [.rmTmp, .writeTmp]
  | .otherExc _ => [.rmTmp, .writeTmp]

/-- Trace of one `try_curl` call: temp file removed, curl writes to the
temp file, and only exit code 0 reaches the rename. -/
def tryCurlTrace (rc : Nat) : List DlEvent :=
  if rc = 0 then [.rmTmp, .writeTmp, .renameTmpDest] else [.rmTmp, .writeTmp]

/-- `sleep_s = min(2 ** attempt, 30)`. -/
def backoff (attempt : Nat) : Nat := min (2 ^ attempt) 30

/-- How the inner `for attempt in range(retries)` loop ends. -/
inductive LoopExit where
  | success
  | raised (e : ExcBase)
  | fellThrough
deriving DecidableEq, Repr

/-- The urllib retry loop over one URL (run_prim.py lines 195-215).
`f` maps attempt index to outcome, `remaining` counts attempts left,
`attempt` is the current index, `last` is `last_err`.  Returns the
event trace, how the loop exited, and the final `last_err`:
success returns from `download_file`; a non-transient HTTP error is
re-raised (escaping the whole function); a transient error sleeps
`min(2^attempt, 30)` and retries; any other exception breaks to the
curl fallback; running out of attempts falls through. -/
def attemptLoop (f : Nat → AttemptOutcome) :
    Nat → Nat → Option ExcBase → List DlEvent × LoopExit × Option ExcBase
  | 0, _, last => ([], .fellThrough, last)
  | r + 1, attempt, last =>
    match f attempt with
    | .success => (tryUrllibTrace .success, .success, last)
    | .httpError c =>
      if isTransientCode c then
        let rest := attemptLoop f r (attempt + 1) (some (.httpError c))
        (tryUrllibTrace (.httpError c) ++ .sleep (backoff attempt) :: rest.1,
          rest.2.1, rest.2.2)
      else
        (tryUrllibTrace (.httpError c), .raised (.httpError c),
          some (.httpError c))
    | .netError i =>
      let rest := attemptLoop f r (attempt + 1) (some (.netError i))
      (tryUrllibTrace (.netError i) ++ .sleep (backoff attempt) :: rest.1,
        rest.2.1, rest.2.2)
    | .otherExc i =>
      (tryUrllibTrace (.otherExc i), .fellThrough, some (.otherExc i))

/-- Environment oracle for one `download_file` call. -/
structure DlEnv where
  urllibResult : Nat → Nat → AttemptOutcome
  curlAvailable : Bool
  curlRc : Nat → Nat
  curlOut : Nat → String

/-- The `for url in urls` loop (run_prim.py lines 191-224) over URL
indices `u, u+1, ...` with `remaining` URLs left: run the urllib retry
loop; on success return; on a re-raised non-transient HTTP error the
error escapes; otherwise try the curl fallback when curl is on PATH,
and move to the next URL, threading `last_err`.  When the URLs run out,
raise `RuntimeError("download failed for all URLs: ...")`. -/
def urlLoop (env : DlEnv) (retries : Nat) :
    Nat → Nat → Option ExcBase → List DlEvent × Except Exc Unit
  | 0, _, last => ([], .error (.allUrlsFailed last))
  | r + 1, u, last =>
    let al := attemptLoop (env.urllibResult u) retries 0 last
    let evs := .tryUrl u :: al.1
    match al.2.1 with
    | .success => (evs, .ok ())
    | .raised e => (evs, .error (.base e))
    | .fellThrough =>
      if env.curlAvailable then
        let rc := env.curlRc u
        let cevs := evs ++ .curlAttempt u :: tryCurlTrace rc
        if rc = 0 then (cevs, .ok ())
        else
          let rest := urlLoop env retries r (u + 1)
            (some (.curlFailed rc (env.curlOut u)))
          (cevs ++ rest.1, rest.2)
      else
        let rest := urlLoop env retries r (u + 1) al.2.2
        (evs ++ rest.1, rest.2)

/-- `download_file(urls, dest, timeout=60, retries=6)` with `numUrls`
URLs, as event trace plus result. -/
def download_file (env : DlEnv) (numUrls retries : Nat) :
    List DlEvent × Except Exc Unit :=
  urlLoop env retries numUrls 0 none

/-- Total seconds slept in a trace. -/
def sleepTotal : List DlEvent → Nat
  | [] => 0
  | .sleep s :: rest => s + sleepTotal rest
  | _ :: rest => sleepTotal rest

/-!  ## Archive extractor (`extract_tar_zst`, run_prim.py lines 229-260) -/

/-- Oracle for one `extract_tar_zst` call: whether the `tar` binary is
on PATH for the combined `tar --zstd` invocation (a missing binary
raises `FileNotFoundError`), its exit code, and the fallback pipeline's
`zstd` and `tar` exit codes and captured outputs. -/
structure ExtractEnv where
  tarZstdAvailable : Bool
  tarZstdRc : Nat
  zstdRc : Nat
  tarRc : Nat
  tarOut : String
  zstdErr : String
deriving DecidableEq, Repr

inductive ExtractEvent where
  | primaryAttempt
  | fallbackPipeline
deriving DecidableEq, Repr

/-- The failure report of the fallback pipeline:
`msg = (tar.stdout or "") + ("\n[zstd stderr]\n" + zstd_err if zstd_err else "")`
wrapped in `RuntimeError(f"extract failed (tar rc=.., zstd rc=..):\n{msg}")`. -/
def extractFailMsg (e : ExtractEnv) : String :=
  "extract failed (tar rc=" ++ toString e.tarRc ++ ", zstd rc="
    ++ toString e.zstdRc ++ "):\n" ++ e.tarOut
    ++ (if e.zstdErr ≠ "" then "\n[zstd stderr]\n" ++ e.zstdErr else "")

/-- `extract_tar_zst(archive, out_dir)`: try `tar --zstd -xf` first and
return on exit code 0; if the tool is unavailable or exits nonzero,
run the `zstd -dc | tar -xf -` fallback pipeline, which raises iff
either stage exits nonzero. -/
def extract_tar_zst (e : ExtractEnv) : List ExtractEvent × Except String Unit :=
  if e.tarZstdAvailable && e.tarZstdRc == 0 then ([.primaryAttempt], .ok ())
  else if e.tarRc ≠ 0 ∨ e.zstdRc ≠ 0 then
    ([.primaryAttempt, .fallbackPipeline], .error (extractFailMsg e))
  else ([.primaryAttempt, .fallbackPipeline], .ok ())

/-!  ## Dataset acquisition (`ensure_bfs_data`, run_prim.py lines 263-298)

The filesystem state that matters is whether all three `BFS_MARKERS`
exist (`markers`) and whether the cached archive file exists, carrying
its content digest (`archive`).  `sha256_file` on the archive is
modelled by that stored digest. -/

structure FS where
  markers : Bool
  archive : Option String
deriving DecidableEq, Repr

/-- Oracle for one `ensure_bfs_data` call: download oracle, the digest
of the archive a successful download would produce, the extraction
oracle, and whether the markers exist after extraction. -/
structure EnsureEnv where
  dlEnv : DlEnv
  fetchedDigest : String
  extractEnv : ExtractEnv
  markersAfterExtract : Bool

inductive EnsureEvent where
  | downloadCall
  | checksumVerify
  | extractCall
deriving DecidableEq, Repr

/-- `ZENODO_BFS_SHA256` from the source. -/
def ZENODO_BFS_SHA256 : String :=
  "1fe6b7b185509cd567fd530f378aa15c48ff43ad5be8d2c9707e93ff0ada7f3a"

/-- The checksum-mismatch reason string. -/
def mismatchReason (got expected : String) : String :=
  "sha256 mismatch for bfs-data.tar.zst (got " ++ got ++ ", expected "
    ++ expected ++ ")"

/-- The tail of `ensure_bfs_data` after an archive with digest `got` is
at the cache path: verify the sha256 (lowercasing both sides); on
mismatch delete the archive and return failure; otherwise extract
(raising on extraction failure) and re-check the markers. -/
def ensureTail (expected got : String) (fs : FS) (env : EnsureEnv) :
    List EnsureEvent × Except Exc ((Bool × String) × FS) :=
  if strLower got ≠ strLower expected then
    ([.checksumVerify],
      .ok ((false, mismatchReason got expected), { fs with archive := none }))
  else
    match (extract_tar_zst env.extractEnv).2 with
    | .error m => ([.checksumVerify, .extractCall], .error (.extractError m))
    | .ok _ =>
      let fs' := { fs with markers := env.markersAfterExtract }
      if env.markersAfterExtract then
        ([.checksumVerify, .extractCall],
          .ok ((true, "downloaded + extracted"), fs'))
      else
        ([.checksumVerify, .extractCall],
          .ok ((false, "extracted but markers still missing"), fs'))

/-- `ensure_bfs_data(bench_dir, allow_download)` with the expected
checksum as explicit configuration (the source's module constant):
return success immediately when all markers exist; fail when offline;
otherwise download to the cache unless a cached archive exists
(exceptions from `download_file` propagate), then verify and extract.
`ZENODO_BFS_URLS` has 2 entries and the call uses `retries=6`. -/
def ensure_bfs_data (expected : String) (allowDownload : Bool) (fs : FS)
    (env : EnsureEnv) : List EnsureEvent × Except Exc ((Bool × String) × FS) :=
  if fs.markers then ([], .ok ((true, "datasets present"), fs))
  else if allowDownload = false then
    ([], .ok ((false, "datasets missing (offline)"), fs))
  else
    match fs.archive with
    | some got => ensureTail expected got fs env
    | none =>
      match (download_file env.dlEnv 2 6).2 with
      | .error e => ([.downloadCall], .error e)
      | .ok _ =>
        let fs' : FS := { fs with archive := some env.fetchedDigest }
        let t := ensureTail expected env.fetchedDigest fs' env
        (.downloadCall :: t.1, t.2)

/-- The digest `ensure_bfs_data` will verify, if it gets that far: the
cached archive's digest, else the downloaded one when the download
succeeds. -/
def effectiveDigest (fs : FS) (env : EnsureEnv) : Option String :=
  match fs.archive with
  | some d => some d
  | none =>
    match (download_file env.dlEnv 2 6).2 with
    | .ok _ => some env.fetchedDigest
    | .error _ => none

/-!  ## Orchestrator (`main`, run_prim.py lines 349-464) -/

structure Config where
  doMake : Bool
  allowDownload : Bool

/-- Per-benchmark environment: directory existence, the BFS data state
and oracles (consulted only for the benchmark named `BFS`), Makefile
existence and `run_make` outcome (an `error` models `subprocess.run`
itself raising, e.g. `make` not installed), the `bin/` listing, and
the host-binary run outcome (an `error` models the launch exception
caught by `main`'s `try`/`except`). -/
structure BenchEnv where
  dirExists : Bool
  fs : FS
  ensureEnv : EnsureEnv
  makefileExists : Bool
  makeResult : Except Exc Int
  binDir : Option (List BinEntry)
  runResult : Except Exc (String × Int)

/-- One accumulated per-benchmark outcome (an entry of `passed` or
`failed`). -/
structure RunRes where
  bench : String
  pass : Bool
  reason : String
deriving DecidableEq, Repr

/-- Rendering of an exception for the `f"exception: {e}"` reason. -/
def excMsg : Exc → String
  | .base (.httpError c) => "HTTP Error " ++ toString c
  | .base (.netError i) => "URLError " ++ toString i
  | .base (.otherExc i) => "Exception " ++ toString i
  | .base (.curlFailed rc out) => "curl failed (rc=" ++ toString rc ++ "):\n" ++ out
  | .allUrlsFailed _ => "download failed for all URLs"
  | .extractError m => m

/-- Locate the host binary, run it (launch exceptions are caught and
recorded), and classify its output (run_prim.py lines 413-449). -/
def runStep (name : String) (e : BenchEnv) : RunRes :=
  match pick_host_binary name e.binDir with
  | none => ⟨name, false, "no host binary found"⟩
  | some _ =>
    match e.runResult with
    | .error ex => ⟨name, false, "exception: " ++ excMsg ex⟩
    | .ok (out, rc) =>
      let c := classify out rc
      ⟨name, c.1, c.2⟩

/-- The optional build step (run_prim.py lines 389-411): a missing
Makefile or a nonzero `make` exit records a failure; an exception from
launching `make` is not caught and propagates. -/
def buildStep (cfg : Config) (name : String) (e : BenchEnv) :
    Except Exc RunRes :=
  if cfg.doMake then
    if e.makefileExists = false then .ok ⟨name, false, "missing Makefile"⟩
    else
      match e.makeResult with
      | .error ex => .error ex
      | .ok rc =>
        if rc ≠ 0 then
          .ok ⟨name, false, "make failed (rc=" ++ toString rc ++ ")"⟩
        else .ok (runStep name e)
  else .ok (runStep name e)

/-- Processing of one benchmark inside `main`'s loop: missing directory
and BFS data failures record a Fail and skip the rest; exceptions from
`ensure_bfs_data` are not caught and propagate out of the loop. -/
def processBench (cfg : Config) (name : String) (e : BenchEnv) :
    Except Exc RunRes :=
  if e.dirExists = false then .ok ⟨name, false, "missing dir"⟩
  else if name = "BFS" then
    match (ensure_bfs_data ZENODO_BFS_SHA256 cfg.allowDownload e.fs e.ensureEnv).2 with
    | .error ex => .error ex
    | .ok ((ok, reason), _) =>
      if ok = false then .ok ⟨name, false, reason⟩
      else buildStep cfg name e
  else buildStep cfg name e

/-- `main`'s `for bench in selected` loop: one `RunRes` per benchmark,
in order; an uncaught exception while processing one benchmark aborts
the whole batch. -/
def mainLoop (cfg : Config) : List (String × BenchEnv) → Except Exc (List RunRes)
  | [] => .ok []
  | (n, e) :: rest =>
    match processBench cfg n e with
    | .error ex => .error ex
    | .ok r =>
      match mainLoop cfg rest with
      | .error ex => .error ex
      | .ok rs => .ok (r :: rs)

/-!  ## Concrete environments used in counterexamples and witnesses -/

/-- A network where every urllib attempt hits HTTP 404 (non-transient),
while curl is on PATH and would succeed. -/
def http404Env : DlEnv := ⟨fun _ _ => .httpError 404, true, fun _ => 0, fun _ => ""⟩

/-- A network where every urllib attempt times out and curl is not on
PATH: every mechanism is exhausted. -/
def deadNetEnv : DlEnv := ⟨fun _ _ => .netError 0, false, fun _ => 1, fun _ => ""⟩

/-- A network where every urllib attempt times out, curl is on PATH
but also fails. -/
def deadNetCurlEnv : DlEnv := ⟨fun _ _ => .netError 0, true, fun _ => 7, fun _ => "curl says no"⟩

/-- A healthy network: the first urllib attempt succeeds. -/
def okDlEnv : DlEnv := ⟨fun _ _ => .success, true, fun _ => 0, fun _ => ""⟩

/-- An extraction oracle where everything works. -/
def okExtractEnv : ExtractEnv := ⟨true, 0, 0, 0, "", ""⟩

/-- An extraction oracle where `tar --zstd` is unavailable and in the
fallback pipeline `tar` exits 0 but `zstd` exits 1. -/
def zstdFailsExtractEnv : ExtractEnv := ⟨false, 0, 1, 0, "tar out", "zstd: bad frame"⟩

/-- An acquisition oracle whose download never completes. -/
def deadEnsureEnv : EnsureEnv := ⟨deadNetEnv, ZENODO_BFS_SHA256, okExtractEnv, true⟩

/-- An acquisition oracle where everything works. -/
def okEnsureEnv : EnsureEnv := ⟨okDlEnv, ZENODO_BFS_SHA256, okExtractEnv, true⟩

/-- BFS benchmark state whose dataset is missing and whose download
will fail for every URL and mechanism. -/
def bfsBadEnv : BenchEnv :=
  ⟨true, ⟨false, none⟩, deadEnsureEnv, true, .ok 0, some [("host", true)], .ok ("OK", 0)⟩

/-- A healthy non-BFS benchmark: directory present, a `host` binary in
`bin/`, run prints `OK` and exits 0. -/
def vaGoodEnv : BenchEnv :=
  ⟨true, ⟨true, none⟩, okEnsureEnv, true, .ok 0, some [("host", true)], .ok ("OK", 0)⟩

/-- A benchmark whose directory is missing. -/
def missingDirEnv : BenchEnv :=
  ⟨false, ⟨true, none⟩, okEnsureEnv, true, .ok 0, some [("host", true)], .ok ("OK", 0)⟩

/-- A benchmark whose run raises at launch (caught by `main`). -/
def launchFailEnv : BenchEnv :=
  ⟨true, ⟨true, none⟩, okEnsureEnv, true, .ok 0, some [("host", true)],
    .error (.base (.otherExc 13))⟩

/-- `--no-make` configuration with downloads allowed. -/
def noMakeCfg : Config := ⟨false, true⟩

/-- Attempt oracle for one URL: two transient network errors, then a
generic exception. -/
def twoTransientThenBreak : Nat → AttemptOutcome :=
  fun i => if i < 2 then .netError 0 else .otherExc 1

example : classify "all OK" 0 = (true, "found OK") := by decide
example : classify "OK then ERROR" 0 = (false, "found ERROR") := by decide
example : classify "" 0 = (false, "no OK/ERROR marker") := by decide
example : classify "OK" 7 = (false, "rc=7") := by decide
example : pick_host_binary "GEMV" (some [("host_code", true), ("dpu_code", true)])
    = some "host_code" := by decide
example : pick_host_binary "GEMV" (some [("foo_dpu", true), ("foo_host", true)])
    = some "foo_host" := by decide
example : pick_host_binary "GEMV" (some [("dpu", true)]) = none := by decide

example : download_file http404Env 2 6
    = ([.tryUrl 0, .rmTmp], .error (.base (.httpError 404))) := by rfl

example : (download_file deadNetEnv 2 6).2
    = .error (.allUrlsFailed (some (.netError 0))) := by rfl

example : (download_file deadNetCurlEnv 2 6).2
    = .error (.allUrlsFailed (some (.curlFailed 7 "curl says no"))) := by rfl

example : (download_file okDlEnv 2 6).2 = .ok () := by rfl

example : mainLoop noMakeCfg [("BFS", bfsBadEnv), ("VA", vaGoodEnv)]
    = .error (.allUrlsFailed (some (.netError 0))) := by rfl

example : mainLoop noMakeCfg [("VA", vaGoodEnv)]
    = .ok [⟨"VA", true, "found OK"⟩] := by rfl

example : mainLoop noMakeCfg [("NW", missingDirEnv), ("VA", launchFailEnv)]
    = .ok [⟨"NW", false, "missing dir"⟩,
           ⟨"VA", false, "exception: Exception 13"⟩] := by rfl

/-!  ## Theorems -/

/-- C3: for every captured output string and exit code, `classify`
evaluates in fixed order: a nonzero exit code fails with reason
`rc=<rc>` regardless of markers; otherwise an `ERROR` substring fails
with `found ERROR` even when `OK` is also present; otherwise an `OK`
substring passes; otherwise it fails with `no OK/ERROR marker` —
together with the spec's classifier truth table. -/
theorem classify_spec_order :
    (∀ (out : String) (rc : Int),
      (rc ≠ 0 → classify out rc = (false, "rc=" ++ toString rc)) ∧
      (rc = 0 → hasSub out "ERROR" = true →
        classify out rc = (false, "found ERROR")) ∧
      (rc = 0 → hasSub out "ERROR" = false → hasSub out "OK" = true →
        classify out rc = (true, "found OK")) ∧
      (rc = 0 → hasSub out "ERROR" = false → hasSub out "OK" = false →
        classify out rc = (false, "no OK/ERROR marker"))) ∧
    classify "...OK..." 0 = (true, "found OK") ∧
    classify "...ERROR..." 0 = (false, "found ERROR") ∧
    classify "...OK...ERROR..." 0 = (false, "found ERROR") ∧
    classify "" 0 = (false, "no OK/ERROR marker") ∧
    classify "...OK...ERROR..." 7 = (false, "rc=7") := by
  refine ⟨fun out rc => ⟨?_, ?_, ?_, ?_⟩, by decide, by decide, by decide,
    by decide, by decide⟩
  · intro h; simp [classify, h]
  · intro h0 herr; simp [classify, h0, herr]
  · intro h0 herr hok; simp [classify, h0, herr, hok]
  · intro h0 herr hok; simp [classify, h0, herr, hok]

/-- Witness for C3 at a concrete input. -/
theorem classify_spec_order_witness :
    classify "zzz" 5 = (false, "rc=" ++ toString (5 : Int)) :=
  (classify_spec_order.1 "zzz" 5).1 (by decide)

/-- The candidate filter of `pick_host_binary` (one pass with a
conjoined predicate) equals the spec's three staged exclusions. -/
theorem filter_cands (l : List BinEntry) :
    l.filter (fun e => e.2 && (!(EXCLUDE_BIN_NAMES.contains e.1)
        && !(hasSub (strLower e.1) "dpu" && !hasSub (strLower e.1) "host")))
      = ((l.filter (fun e => e.2)).filter
            (fun e => !(EXCLUDE_BIN_NAMES.contains e.1))).filter
          (fun e => !(hasSub (strLower e.1) "dpu")
            || hasSub (strLower e.1) "host") := by
  rw [List.filter_filter, List.filter_filter]
  apply List.filter_congr
  intro a _
  cases ha : a.2 <;> cases hd : EXCLUDE_BIN_NAMES.contains a.1 <;>
    cases hu : hasSub (strLower a.1) "dpu" <;>
    cases hh : hasSub (strLower a.1) "host" <;>
    simp [ha, hd, hu, hh]

/-- C6: the artifact locator returns absent when `bin/` does not exist;
otherwise the first of `host_code`, `host`, `<lowercased-name>_host`
that exists and is executable; otherwise, among executable files in
name-sorted order minus the denylist and minus dpu-without-host names,
the first containing `host`, else the first candidate, else absent —
with the spec's three concrete examples. -/
theorem pick_host_binary_spec :
    (∀ name bin, pick_host_binary name bin = locateSpec name bin) ∧
    pick_host_binary "GEMV" (some [("host_code", true), ("dpu_code", true)])
      = some "host_code" ∧
    pick_host_binary "GEMV" (some [("foo_dpu", true), ("foo_host", true)])
      = some "foo_host" ∧
    pick_host_binary "GEMV" (some [("dpu", true)]) = none := by
  refine ⟨fun name bin => ?_, by decide, by decide, by decide⟩
  cases bin with
  | none => rfl
  | some entries =>
    simp only [pick_host_binary, locateSpec]
    rw [filter_cands (sortByName entries)]

/-- C9: `extract_tar_zst` uses the combined `tar --zstd` invocation
first and returns when it exits 0; when it is unavailable or exits
nonzero it runs the `zstd -dc | tar -xf -` fallback pipeline, which
fails iff at least one stage exits nonzero (even when the other exits
zero), raising both tools' captured output concatenated. -/
theorem extract_fallback_spec (e : ExtractEnv) :
    (e.tarZstdAvailable = true → e.tarZstdRc = 0 →
      extract_tar_zst e = ([.primaryAttempt], .ok ())) ∧
    (e.tarZstdAvailable = false ∨ e.tarZstdRc ≠ 0 →
      ExtractEvent.fallbackPipeline ∈ (extract_tar_zst e).1 ∧
      ((extract_tar_zst e).2 = .error (extractFailMsg e) ↔
        e.tarRc ≠ 0 ∨ e.zstdRc ≠ 0) ∧
      ((extract_tar_zst e).2 = .ok () ↔ e.tarRc = 0 ∧ e.zstdRc = 0)) ∧
    (e.zstdErr ≠ "" →
      extractFailMsg e = "extract failed (tar rc=" ++ toString e.tarRc
        ++ ", zstd rc=" ++ toString e.zstdRc ++ "):\n" ++ e.tarOut
        ++ ("\n[zstd stderr]\n" ++ e.zstdErr)) := by
  refine ⟨?_, ?_, ?_⟩
  · intro h1 h2; simp [extract_tar_zst, h1, h2]
  · intro h
    have hc : (e.tarZstdAvailable && e.tarZstdRc == 0) = false := by
      rcases h with h | h
      · simp [h]
      · simp [h]
    by_cases hrc : e.tarRc ≠ 0 ∨ e.zstdRc ≠ 0
    · refine ⟨?_, ?_, ?_⟩ <;> simp [extract_tar_zst, hc, hrc]
      omega
    · push_neg at hrc
      refine ⟨?_, ?_, ?_⟩ <;>
        simp [extract_tar_zst, hc, hrc.1, hrc.2]
  · intro h; simp [extractFailMsg, h]

/-- Witness for C9: `tar --zstd` unavailable, fallback pipeline with
`tar` exiting 0 but `zstd` exiting 1 must fail. -/
theorem extract_fallback_spec_witness :
    ExtractEvent.fallbackPipeline ∈ (extract_tar_zst zstdFailsExtractEnv).1 ∧
    ((extract_tar_zst zstdFailsExtractEnv).2
        = .error (extractFailMsg zstdFailsExtractEnv) ↔
      zstdFailsExtractEnv.tarRc ≠ 0 ∨ zstdFailsExtractEnv.zstdRc ≠ 0) ∧
    ((extract_tar_zst zstdFailsExtractEnv).2 = .ok () ↔
      zstdFailsExtractEnv.tarRc = 0 ∧ zstdFailsExtractEnv.zstdRc = 0) :=
  (extract_fallback_spec zstdFailsExtractEnv).2.1 (Or.inl rfl)

/-- C5: when all dataset markers exist, `ensure_bfs_data` returns
success immediately, performs no download, checksum, or extraction
activity, and leaves the state unchanged — so two consecutive calls
both return success with no activity. -/
theorem ensure_idempotent (expected : String) (a : Bool) (fs : FS)
    (env env2 : EnsureEnv) (h : fs.markers = true) :
    ensure_bfs_data expected a fs env
      = ([], .ok ((true, "datasets present"), fs)) ∧
    ensure_bfs_data expected a fs env2
      = ([], .ok ((true, "datasets present"), fs)) := by
  constructor <;> simp [ensure_bfs_data, h]

/-- Witness for C5 at a concrete satisfied-markers state. -/
theorem ensure_idempotent_witness :
    ensure_bfs_data ZENODO_BFS_SHA256 true ⟨true, none⟩ okEnsureEnv
      = ([], .ok ((true, "datasets present"), (⟨true, none⟩ : FS))) ∧
    ensure_bfs_data ZENODO_BFS_SHA256 true ⟨true, none⟩ deadEnsureEnv
      = ([], .ok ((true, "datasets present"), (⟨true, none⟩ : FS))) :=
  ensure_idempotent ZENODO_BFS_SHA256 true ⟨true, none⟩ okEnsureEnv
    deadEnsureEnv rfl

/-- C1 counterexample: with the BFS dataset missing and every download
mechanism failing, the `RuntimeError` raised by `download_file` inside
`ensure_bfs_data` is not caught in `main`'s loop: the batch aborts with
the exception, no Fail result is recorded, and the following benchmark
is never processed. -/
theorem orchestrator_halts_on_download_exception :
    mainLoop noMakeCfg [("BFS", bfsBadEnv), ("VA", vaGoodEnv)]
      = .error (.allUrlsFailed (some (.netError 0))) := rfl

/-- C2 counterexample: a non-transient HTTP error (404) on the first
URL's first attempt is re-raised out of the whole `download_file` call:
the curl fallback is never attempted, the second URL is never tried,
and the surfaced error is the HTTP error itself, not the
all-URLs-exhausted error. -/
theorem nontransient_http_aborts_call :
    download_file http404Env 2 6
      = ([.tryUrl 0, .rmTmp], .error (.base (.httpError 404))) := rfl

theorem sleepTotal_append (a b : List DlEvent) :
    sleepTotal (a ++ b) = sleepTotal a + sleepTotal b := by
  induction a with
  | nil => simp [sleepTotal]
  | cons x xs ih => cases x <;> simp [sleepTotal, ih, Nat.add_assoc]

theorem sleepTotal_tryUrllib (o : AttemptOutcome) :
    sleepTotal (tryUrllibTrace o) = 0 := by
  cases o <;> rfl

theorem sleepTotal_sleep_cons (s : Nat) (l : List DlEvent) :
    sleepTotal (DlEvent.sleep s :: l) = s + sleepTotal l := rfl

/-- When the first `r` attempts starting at index `j` are all
transient, the retry loop sleeps `backoff` at each of them. -/
theorem attemptLoop_sleep_all (f : Nat → AttemptOutcome) :
    ∀ (r j : Nat) (last : Option ExcBase),
      (∀ i, i < r → isTransientOutcome (f (j + i)) = true) →
      sleepTotal (attemptLoop f r j last).1
        = ((List.range r).map (fun i => backoff (j + i))).sum := by
  intro r
  induction r with
  | zero => intro j last _; rfl
  | succ r ih =>
    intro j last h
    have h0 : isTransientOutcome (f j) = true := by
      simpa using h 0 (Nat.succ_pos r)
    have hrec : ∀ i, i < r → isTransientOutcome (f (j + 1 + i)) = true := by
      intro i hi
      have hx := h (i + 1) (by omega)
      have e : j + (i + 1) = j + 1 + i := by omega
      rwa [e] at hx
    have hfun : ((fun i => backoff (j + i)) ∘ Nat.succ)
        = fun i => backoff (j + 1 + i) := by
      funext i; simp only [Function.comp]; congr 1; omega
    cases hf : f j with
    | success => rw [hf] at h0; simp [isTransientOutcome] at h0
    | otherExc i => rw [hf] at h0; simp [isTransientOutcome] at h0
    | httpError c =>
      have hc : isTransientCode c = true := by
        rw [hf] at h0; simpa [isTransientOutcome] using h0
      have ihr := ih (j + 1) (some (.httpError c)) hrec
      simp only [attemptLoop, hf, hc, if_true]
      rw [sleepTotal_append, sleepTotal_tryUrllib, sleepTotal_sleep_cons, ihr]
      rw [List.range_succ_eq_map, List.map_cons, List.sum_cons, List.map_map,
        hfun]
      simp
    | netError i =>
      have ihr := ih (j + 1) (some (.netError i)) hrec
      simp only [attemptLoop, hf]
      rw [sleepTotal_append, sleepTotal_tryUrllib, sleepTotal_sleep_cons, ihr]
      rw [List.range_succ_eq_map, List.map_cons, List.sum_cons, List.map_map,
        hfun]
      simp

/-- When the first `k` attempts are transient and attempt `k` is not,
the retry loop stops at attempt `k` with no further sleeps. -/
theorem attemptLoop_sleep_stop (f : Nat → AttemptOutcome) :
    ∀ (k r j : Nat) (last : Option ExcBase), k < r →
      (∀ i, i < k → isTransientOutcome (f (j + i)) = true) →
      isTransientOutcome (f (j + k)) = false →
      sleepTotal (attemptLoop f r j last).1
        = ((List.range k).map (fun i => backoff (j + i))).sum := by
  intro k
  induction k with
  | zero =>
    intro r j last hlt _ hnt
    obtain ⟨r', rfl⟩ : ∃ r', r = r' + 1 := ⟨r - 1, by omega⟩
    rw [Nat.add_zero] at hnt
    cases hf : f j with
    | success => simp [attemptLoop, hf, sleepTotal_tryUrllib]
    | httpError c =>
      have hc : isTransientCode c = false := by
        rw [hf] at hnt; simpa [isTransientOutcome] using hnt
      simp [attemptLoop, hf, hc, sleepTotal_tryUrllib]
    | netError i => rw [hf] at hnt; simp [isTransientOutcome] at hnt
    | otherExc i => simp [attemptLoop, hf, sleepTotal_tryUrllib]
  | succ k ih =>
    intro r j last hlt h hnt
    obtain ⟨r', rfl⟩ : ∃ r', r = r' + 1 := ⟨r - 1, by omega⟩
    have h0 : isTransientOutcome (f j) = true := by
      simpa using h 0 (Nat.succ_pos k)
    have hrec : ∀ i, i < k → isTransientOutcome (f (j + 1 + i)) = true := by
      intro i hi
      have hx := h (i + 1) (by omega)
      have e : j + (i + 1) = j + 1 + i := by omega
      rwa [e] at hx
    have hnt' : isTransientOutcome (f (j + 1 + k)) = false := by
      have e : j + (k + 1) = j + 1 + k := by omega
      rwa [e] at hnt
    have hfun : ((fun i => backoff (j + i)) ∘ Nat.succ)
        = fun i => backoff (j + 1 + i) := by
      funext i; simp only [Function.comp]; congr 1; omega
    cases hf : f j with
    | success => rw [hf] at h0; simp [isTransientOutcome] at h0
    | otherExc i => rw [hf] at h0; simp [isTransientOutcome] at h0
    | httpError c =>
      have hc : isTransientCode c = true := by
        rw [hf] at h0; simpa [isTransientOutcome] using h0
      have ihr := ih r' (j + 1) (some (.httpError c)) (by omega) hrec hnt'
      simp only [attemptLoop, hf, hc, if_true]
      rw [sleepTotal_append, sleepTotal_tryUrllib, sleepTotal_sleep_cons, ihr]
      rw [List.range_succ_eq_map, List.map_cons, List.sum_cons, List.map_map,
        hfun]
      simp
    | netError i =>
      have ihr := ih r' (j + 1) (some (.netError i)) (by omega) hrec hnt'
      simp only [attemptLoop, hf]
      rw [sleepTotal_append, sleepTotal_tryUrllib, sleepTotal_sleep_cons, ihr]
      rw [List.range_succ_eq_map, List.map_cons, List.sum_cons, List.map_map,
        hfun]
      simp

/-- C7: over the per-URL retry loop, `N` consecutive transient failures
(HTTP 429/502/503/504 or network/timeout errors) make the total time
slept equal `sum_i min(2^i, 30)` for `i < N` — both when the retry
budget is exactly `N` and when a non-transient outcome at attempt `N`
stops the loop with no further sleeps. -/
theorem retry_backoff_sum (f : Nat → AttemptOutcome) (retries N : Nat)
    (last : Option ExcBase) :
    ((∀ i, i < N → isTransientOutcome (f i) = true) → N = retries →
      sleepTotal (attemptLoop f retries 0 last).1
        = ((List.range N).map (fun i => min (2 ^ i) 30)).sum) ∧
    ((∀ i, i < N → isTransientOutcome (f i) = true) → N < retries →
      isTransientOutcome (f N) = false →
      sleepTotal (attemptLoop f retries 0 last).1
        = ((List.range N).map (fun i => min (2 ^ i) 30)).sum) := by
  have hfun : (fun i => backoff (0 + i)) = fun i => min (2 ^ i) 30 := by
    funext i; simp [backoff]
  constructor
  · intro h he
    subst he
    have hx := attemptLoop_sleep_all f N 0 last
      (by intro i hi; simpa using h i hi)
    rwa [hfun] at hx
  · intro h hlt hnt
    have hx := attemptLoop_sleep_stop f N retries 0 last hlt
      (by intro i hi; simpa using h i hi) (by simpa using hnt)
    rwa [hfun] at hx

/-- Witness for C7: two transient failures then a generic exception on
attempt 2 sleep `min(1,30) + min(2,30)` seconds in total. -/
theorem retry_backoff_sum_witness :
    sleepTotal (attemptLoop twoTransientThenBreak 6 0 none).1
      = ((List.range 2).map (fun i => min (2 ^ i) 30)).sum :=
  (retry_backoff_sum twoTransientThenBreak 6 2 none).2
    (by decide) (by decide) (by decide)

/-- If the retry loop's trace contains the destination rename, the loop
exited successfully. -/
theorem attemptLoop_rename_success (f : Nat → AttemptOutcome) :
    ∀ (r j : Nat) (last : Option ExcBase),
      DlEvent.renameTmpDest ∈ (attemptLoop f r j last).1 →
      (attemptLoop f r j last).2.1 = LoopExit.success := by
  intro r
  induction r with
  | zero => intro j last h; simp [attemptLoop] at h
  | succ r ih =>
    intro j last h
    cases hf : f j with
    | success => simp [attemptLoop, hf]
    | httpError c =>
      cases hc : isTransientCode c with
      | true =>
        simp only [attemptLoop, hf, hc, if_true] at h ⊢
        simp [tryUrllibTrace] at h
        exact ih (j + 1) (some (.httpError c)) h
      | false =>
        simp only [attemptLoop, hf, hc, if_false] at h
        simp [tryUrllibTrace] at h
    | netError i =>
      simp only [attemptLoop, hf] at h ⊢
      simp [tryUrllibTrace] at h
      exact ih (j + 1) (some (.netError i)) h
    | otherExc i =>
      simp only [attemptLoop, hf] at h
      simp [tryUrllibTrace] at h

/-- If a `download_file` trace contains the destination rename, the
call returned success. -/
theorem urlLoop_rename_ok (env : DlEnv) (retries : Nat) :
    ∀ (r u : Nat) (last : Option ExcBase),
      DlEvent.renameTmpDest ∈ (urlLoop env retries r u last).1 →
      (urlLoop env retries r u last).2 = .ok () := by
  intro r
  induction r with
  | zero => intro u last h; simp [urlLoop] at h
  | succ r ih =>
    intro u last h
    cases hal : (attemptLoop (env.urllibResult u) retries 0 last).2.1 with
    | success => simp [urlLoop, hal]
    | raised e =>
      simp only [urlLoop, hal] at h
      simp at h
      have hs := attemptLoop_rename_success (env.urllibResult u) retries 0 last h
      rw [hal] at hs
      exact LoopExit.noConfusion hs
    | fellThrough =>
      cases hca : env.curlAvailable with
      | false =>
        simp only [urlLoop, hal, hca] at h ⊢
        simp at h ⊢
        rcases h with h | h
        · have hs := attemptLoop_rename_success (env.urllibResult u) retries 0 last h
          rw [hal] at hs
          exact LoopExit.noConfusion hs
        · exact ih (u + 1) _ h
      | true =>
        by_cases hrc : env.curlRc u = 0
        · simp [urlLoop, hal, hca, hrc]
        · simp only [urlLoop, hal, hca, if_neg hrc] at h ⊢
          simp [tryCurlTrace, hrc] at h ⊢
          rcases h with h | h
          · have hs := attemptLoop_rename_success (env.urllibResult u) retries 0 last h
            rw [hal] at hs
            exact LoopExit.noConfusion hs
          · exact ih (u + 1) _ h

/-- C8: every transfer attempt (urllib and curl alike) writes bytes
only to the temporary side-file; the destination is touched only by the
final rename, which happens exactly on a fully successful attempt, so
any failed `download_file` call leaves the destination unchanged. -/
theorem transfer_atomic_rename :
    (∀ o, o ≠ AttemptOutcome.success → DlEvent.renameTmpDest ∉ tryUrllibTrace o) ∧
    tryUrllibTrace .success = [.rmTmp, .writeTmp, .renameTmpDest] ∧
    (∀ rc, rc ≠ 0 → DlEvent.renameTmpDest ∉ tryCurlTrace rc) ∧
    tryCurlTrace 0 = [.rmTmp, .writeTmp, .renameTmpDest] ∧
    (∀ env n retries ex, (download_file env n retries).2 = .error ex →
      DlEvent.renameTmpDest ∉ (download_file env n retries).1) := by
  refine ⟨?_, rfl, ?_, rfl, ?_⟩
  · intro o ho
    cases o with
    | success => exact absurd rfl ho
    | httpError c => simp [tryUrllibTrace]
    | netError i => simp [tryUrllibTrace]
    | otherExc i => simp [tryUrllibTrace]
  · intro rc h
    simp [tryCurlTrace, h]
  · intro env n retries ex he hmem
    have hok : (download_file env n retries).2 = .ok () :=
      urlLoop_rename_ok env retries n 0 none hmem
    rw [he] at hok
    exact Except.noConfusion hok

/-- Witness for C8: the all-mechanisms-fail download leaves no rename
event in its trace. -/
theorem transfer_atomic_rename_witness :
    DlEvent.renameTmpDest ∉ (download_file deadNetEnv 2 6).1 :=
  transfer_atomic_rename.2.2.2.2 deadNetEnv 2 6
    (.allUrlsFailed (some (.netError 0))) rfl

/-- When no attempt outcome is a non-transient HTTP error, the retry
loop never exits by re-raising. -/
theorem attemptLoop_not_raised (f : Nat → AttemptOutcome)
    (hf : ∀ a, isNonTransientHttp (f a) = false) :
    ∀ (r j : Nat) (last : Option ExcBase) (e : ExcBase),
      (attemptLoop f r j last).2.1 ≠ LoopExit.raised e := by
  intro r
  induction r with
  | zero => intro j last e h; simp [attemptLoop] at h
  | succ r ih =>
    intro j last e h
    cases hfj : f j with
    | success => simp [attemptLoop, hfj] at h
    | httpError c =>
      have hx := hf j
      rw [hfj] at hx
      simp only [isNonTransientHttp, Bool.not_eq_false'] at hx
      simp only [attemptLoop, hfj, hx, if_true] at h
      exact ih (j + 1) (some (.httpError c)) e h
    | netError i =>
      simp only [attemptLoop, hfj] at h
      exact ih (j + 1) (some (.netError i)) e h
    | otherExc i => simp [attemptLoop, hfj] at h

/-- When no attempt outcome is a non-transient HTTP error, the URL loop
either succeeds or fails with the all-URLs-exhausted error, and in the
failure case every URL in range was tried with the primary mechanism
and, when curl is available, with the curl fallback too. -/
theorem urlLoop_exhaust (env : DlEnv) (retries : Nat)
    (hf : ∀ u a, isNonTransientHttp (env.urllibResult u a) = false) :
    ∀ (r u : Nat) (last : Option ExcBase),
      (urlLoop env retries r u last).2 = .ok () ∨
      ∃ l, (urlLoop env retries r u last).2 = .error (.allUrlsFailed l) ∧
        ∀ i, i < r →
          DlEvent.tryUrl (u + i) ∈ (urlLoop env retries r u last).1 ∧
          (env.curlAvailable = true →
            DlEvent.curlAttempt (u + i) ∈ (urlLoop env retries r u last).1) := by
  intro r
  induction r with
  | zero =>
    intro u last
    exact Or.inr ⟨last, rfl, fun i hi => absurd hi (by omega)⟩
  | succ r ih =>
    intro u last
    cases hal : (attemptLoop (env.urllibResult u) retries 0 last).2.1 with
    | success => exact Or.inl (by simp [urlLoop, hal])
    | raised e =>
      exact absurd hal (attemptLoop_not_raised (env.urllibResult u) (hf u)
        retries 0 last e)
    | fellThrough =>
      cases hca : env.curlAvailable with
      | true =>
        by_cases hrc : env.curlRc u = 0
        · exact Or.inl (by simp [urlLoop, hal, hca, hrc])
        · rcases ih (u + 1) (some (.curlFailed (env.curlRc u) (env.curlOut u)))
            with hok | ⟨l, herr, hmem⟩
          · exact Or.inl (by simp [urlLoop, hal, hca, hrc, hok])
          · refine Or.inr ⟨l, by simp [urlLoop, hal, hca, hrc, herr], ?_⟩
            intro i hi
            cases i with
            | zero =>
              constructor <;>
                · simp only [urlLoop, hal, hca, if_neg hrc]
                  simp
            | succ i =>
              have hm := hmem i (by omega)
              have e1 : u + (i + 1) = u + 1 + i := by omega
              rw [e1]
              constructor
              · simp only [urlLoop, hal, hca, if_neg hrc]
                simp [hm.1]
              · intro hcu
                simp only [urlLoop, hal, hca, if_neg hrc]
                simp [hm.2 hca]
      | false =>
        rcases ih (u + 1)
            ((attemptLoop (env.urllibResult u) retries 0 last).2.2)
            with hok | ⟨l, herr, hmem⟩
        · exact Or.inl (by simp [urlLoop, hal, hca, hok])
        · refine Or.inr ⟨l, by simp [urlLoop, hal, hca, herr], ?_⟩
          intro i hi
          refine ⟨?_, fun hcu => absurd hcu (by simp [hca])⟩
          cases i with
          | zero =>
            simp only [urlLoop, hal, hca]
            simp
          | succ i =>
            have hm := hmem i (by omega)
            have e1 : u + (i + 1) = u + 1 + i := by omega
            rw [e1]
            simp only [urlLoop, hal, hca]
            simp [hm.1]

/-- C2 amended: a generic exception aborts only the current URL's
primary attempts and advances to the curl fallback or the next URL, and
when no attempt produces a non-transient HTTP error the call fails only
after every URL and every available mechanism is exhausted, surfacing
the all-URLs-failed error around the last observed error; a
non-transient HTTP error, however, aborts the entire call at once. -/
theorem download_exhaustion_amended (env : DlEnv) (n retries : Nat)
    (hf : ∀ u a, isNonTransientHttp (env.urllibResult u a) = false) :
    (download_file env n retries).2 = .ok () ∨
    ∃ l, (download_file env n retries).2 = .error (.allUrlsFailed l) ∧
      ∀ u, u < n →
        DlEvent.tryUrl u ∈ (download_file env n retries).1 ∧
        (env.curlAvailable = true →
          DlEvent.curlAttempt u ∈ (download_file env n retries).1) := by
  rcases urlLoop_exhaust env retries hf n 0 none with hok | ⟨l, herr, hmem⟩
  · exact Or.inl hok
  · refine Or.inr ⟨l, herr, fun u hu => ?_⟩
    have hm := hmem u hu
    rwa [Nat.zero_add] at hm

/-- Witness for C2's amended theorem: a dead network with failing curl
exhausts both URLs and both mechanisms. -/
theorem download_exhaustion_amended_witness :
    (download_file deadNetCurlEnv 2 6).2 = .ok () ∨
    ∃ l, (download_file deadNetCurlEnv 2 6).2 = .error (.allUrlsFailed l) ∧
      ∀ u, u < 2 →
        DlEvent.tryUrl u ∈ (download_file deadNetCurlEnv 2 6).1 ∧
        (deadNetCurlEnv.curlAvailable = true →
          DlEvent.curlAttempt u ∈ (download_file deadNetCurlEnv 2 6).1) :=
  download_exhaustion_amended deadNetCurlEnv 2 6 (fun _ _ => rfl)

/-- C4: whenever the digest of the downloaded or cached archive differs
(case-insensitively) from the expected digest, `ensure_bfs_data`
deletes the archive and returns failure with the sha256-mismatch
reason; the resulting state has no cached archive, so any subsequent
call downloads again.  A mismatching archive is never accepted. -/
theorem sha_mismatch_deletes (expected got : String) (fs : FS)
    (env : EnsureEnv) (h1 : fs.markers = false)
    (h2 : effectiveDigest fs env = some got)
    (h3 : strLower got ≠ strLower expected) :
    (ensure_bfs_data expected true fs env).2
      = .ok ((false, mismatchReason got expected), ⟨false, none⟩) ∧
    ∀ env2, EnsureEvent.downloadCall
      ∈ (ensure_bfs_data expected true (⟨false, none⟩ : FS) env2).1 := by
  obtain ⟨m, a⟩ := fs
  have hm : m = false := h1
  subst hm
  constructor
  · cases a with
    | some d =>
      have hd : d = got := by simpa [effectiveDigest] using h2
      subst hd
      simp [ensure_bfs_data, ensureTail, h3]
    | none =>
      cases hdl : (download_file env.dlEnv 2 6).2 with
      | error e => simp [effectiveDigest, hdl] at h2
      | ok v =>
        have hd : env.fetchedDigest = got := by
          simpa [effectiveDigest, hdl] using h2
        simp [ensure_bfs_data, ensureTail, hdl, hd, h3]
  · intro env2
    cases hdl : (download_file env2.dlEnv 2 6).2 with
    | error e => simp [ensure_bfs_data, hdl]
    | ok v => simp [ensure_bfs_data, hdl]

/-- Witness for C4 at a concrete cached-but-corrupt archive state. -/
theorem sha_mismatch_deletes_witness :
    (ensure_bfs_data ZENODO_BFS_SHA256 true ⟨false, some "deadbeef"⟩ okEnsureEnv).2
      = .ok ((false, mismatchReason "deadbeef" ZENODO_BFS_SHA256),
          ⟨false, none⟩) ∧
    ∀ env2, EnsureEvent.downloadCall
      ∈ (ensure_bfs_data ZENODO_BFS_SHA256 true (⟨false, none⟩ : FS) env2).1 :=
  sha_mismatch_deletes ZENODO_BFS_SHA256 "deadbeef" ⟨false, some "deadbeef"⟩
    okEnsureEnv rfl rfl (by decide)

/-- C10: the checksum comparison lowercases both the computed digest
and the configured expected digest, so two expected digests that agree
up to letter case produce identical acquisition behaviour, and a digest
matching the expected value case-insensitively verifies successfully
and proceeds to extraction. -/
theorem checksum_case_insensitive (e1 e2 got : String) (fs : FS)
    (env : EnsureEnv) (hcase : strLower e1 = strLower e2)
    (h1 : fs.markers = false) (h2 : effectiveDigest fs env = some got)
    (hmatch : strLower got = strLower e1) :
    ensure_bfs_data e2 true fs env = ensure_bfs_data e1 true fs env ∧
    EnsureEvent.checksumVerify ∈ (ensure_bfs_data e2 true fs env).1 ∧
    EnsureEvent.extractCall ∈ (ensure_bfs_data e2 true fs env).1 := by
  obtain ⟨m, a⟩ := fs
  have hm : m = false := h1
  subst hm
  have hm2 : strLower got = strLower e2 := hmatch.trans hcase
  cases a with
  | some d =>
    have hd : d = got := by simpa [effectiveDigest] using h2
    subst hd
    refine ⟨?_, ?_, ?_⟩
    · simp [ensure_bfs_data, ensureTail, hmatch, hm2, hcase]
    all_goals
      cases hex : (extract_tar_zst env.extractEnv).2 with
      | error msg => simp [ensure_bfs_data, ensureTail, hm2, hex]
      | ok v =>
        cases hma : env.markersAfterExtract <;>
          simp [ensure_bfs_data, ensureTail, hm2, hex, hma]
  | none =>
    cases hdl : (download_file env.dlEnv 2 6).2 with
    | error e => simp [effectiveDigest, hdl] at h2
    | ok v =>
      have hd : env.fetchedDigest = got := by
        simpa [effectiveDigest, hdl] using h2
      refine ⟨?_, ?_, ?_⟩
      · simp [ensure_bfs_data, ensureTail, hdl, hd, hmatch, hm2, hcase]
      all_goals
        cases hex : (extract_tar_zst env.extractEnv).2 with
        | error msg => simp [ensure_bfs_data, ensureTail, hdl, hd, hm2, hex]
        | ok v =>
          cases hma : env.markersAfterExtract <;>
            simp [ensure_bfs_data, ensureTail, hdl, hd, hm2, hex, hma]

/-- Witness for C10: an uppercase expected digest still verifies a
matching archive and behaves exactly like the lowercase configuration. -/
theorem checksum_case_insensitive_witness :
    ensure_bfs_data (strUpper ZENODO_BFS_SHA256) true
        ⟨false, some ZENODO_BFS_SHA256⟩ okEnsureEnv
      = ensure_bfs_data ZENODO_BFS_SHA256 true
        ⟨false, some ZENODO_BFS_SHA256⟩ okEnsureEnv ∧
    EnsureEvent.checksumVerify
      ∈ (ensure_bfs_data (strUpper ZENODO_BFS_SHA256) true
          ⟨false, some ZENODO_BFS_SHA256⟩ okEnsureEnv).1 ∧
    EnsureEvent.extractCall
      ∈ (ensure_bfs_data (strUpper ZENODO_BFS_SHA256) true
          ⟨false, some ZENODO_BFS_SHA256⟩ okEnsureEnv).1 :=
  checksum_case_insensitive ZENODO_BFS_SHA256 (strUpper ZENODO_BFS_SHA256)
    ZENODO_BFS_SHA256 ⟨false, some ZENODO_BFS_SHA256⟩ okEnsureEnv
    (by decide) rfl rfl (by decide)

/-- Every successfully processed benchmark's result carries that
benchmark's name. -/
theorem processBench_bench (cfg : Config) (name : String) (e : BenchEnv)
    (r : RunRes) (h : processBench cfg name e = .ok r) : r.bench = name := by
  unfold processBench buildStep runStep at h
  repeat' split at h
  all_goals first
    | exact Except.noConfusion h
    | (obtain rfl := Except.ok.inj h; rfl)

/-- `buildStep` raises only when `make` is enabled and launching it
raised. -/
theorem buildStep_error (cfg : Config) (name : String) (e : BenchEnv)
    (ex : Exc) (h : buildStep cfg name e = .error ex) :
    cfg.doMake = true ∧ e.makeResult = .error ex := by
  unfold buildStep runStep at h
  repeat' split at h
  all_goals first
    | exact Except.noConfusion h
    | (obtain rfl := Except.error.inj h; constructor <;> assumption)

/-- The only steps of one benchmark's processing that can raise past
the orchestrator are the BFS dataset acquisition and launching `make`;
in particular a run-launch exception never escapes. -/
theorem processBench_error_source (cfg : Config) (name : String)
    (e : BenchEnv) (ex : Exc) (h : processBench cfg name e = .error ex) :
    (name = "BFS" ∧
      (ensure_bfs_data ZENODO_BFS_SHA256 cfg.allowDownload e.fs e.ensureEnv).2
        = .error ex) ∨
    (cfg.doMake = true ∧ e.makeResult = .error ex) := by
  by_cases hdir : e.dirExists = false
  · rw [processBench, if_pos hdir] at h
    exact Except.noConfusion h
  · rw [processBench, if_neg hdir] at h
    by_cases hbfs : name = "BFS"
    · rw [if_pos hbfs] at h
      cases hens : (ensure_bfs_data ZENODO_BFS_SHA256 cfg.allowDownload
          e.fs e.ensureEnv).2 with
      | error ex2 =>
        rw [hens] at h
        obtain rfl := Except.error.inj h
        exact Or.inl ⟨hbfs, rfl⟩
      | ok v =>
        rw [hens] at h
        obtain ⟨⟨ok1, reason⟩, fs2⟩ := v
        simp only [] at h
        split at h
        · exact Except.noConfusion h
        · exact Or.inr (buildStep_error cfg name e ex h)
    · rw [if_neg hbfs] at h
      exact Or.inr (buildStep_error cfg name e ex h)

/-- When no per-benchmark processing raises, `main`'s loop yields
exactly one result per selected benchmark, in order, each carrying its
benchmark's name — failures included. -/
theorem mainLoop_total (cfg : Config) (l : List (String × BenchEnv))
    (h : ∀ p ∈ l, ∃ r, processBench cfg p.1 p.2 = .ok r) :
    ∃ rs, mainLoop cfg l = .ok rs ∧
      List.Forall₂ (fun (p : String × BenchEnv) (r : RunRes) =>
        processBench cfg p.1 p.2 = .ok r ∧ r.bench = p.1) l rs := by
  induction l with
  | nil => exact ⟨[], rfl, List.Forall₂.nil⟩
  | cons p rest ih =>
    obtain ⟨n, en⟩ := p
    obtain ⟨r, hr⟩ := h (n, en) (List.mem_cons_self (n, en) rest)
    obtain ⟨rs, hrs, hfa⟩ := ih (fun q hq => h q (List.mem_cons_of_mem _ hq))
    refine ⟨r :: rs, ?_,
      List.Forall₂.cons ⟨hr, processBench_bench cfg n en r hr⟩ hfa⟩
    simp [mainLoop, hr, hrs]

/-- C1 amended: failures reported through return values — missing
directory, failed acquisition reported by `ensure_bfs_data`'s result,
missing Makefile, nonzero `make`, missing host binary, run-launch
exceptions, and failed output classification — are recorded as one Fail
result per benchmark and the batch continues in order.  However,
exceptions raised inside the acquisition step (`download_file` /
`extract_tar_zst`) or when launching `make` are not caught at the
orchestrator boundary; they are the only steps that can abort the
batch, and a run-launch exception is always converted to a Fail
result. -/
theorem orchestrator_amended (cfg : Config) (l : List (String × BenchEnv))
    (h : ∀ p ∈ l, ∃ r, processBench cfg p.1 p.2 = .ok r) :
    (∃ rs, mainLoop cfg l = .ok rs ∧
      List.Forall₂ (fun (p : String × BenchEnv) (r : RunRes) =>
        processBench cfg p.1 p.2 = .ok r ∧ r.bench = p.1) l rs) ∧
    (∀ name e ex, processBench cfg name e = .error ex →
      (name = "BFS" ∧
        (ensure_bfs_data ZENODO_BFS_SHA256 cfg.allowDownload e.fs
          e.ensureEnv).2 = .error ex) ∨
      (cfg.doMake = true ∧ e.makeResult = .error ex)) ∧
    (∀ name e ex, e.runResult = .error ex →
      runStep name e = ⟨name, false, "exception: " ++ excMsg ex⟩ ∨
      pick_host_binary name e.binDir = none) := by
  refine ⟨mainLoop_total cfg l h, processBench_error_source cfg, ?_⟩
  intro name e ex hrun
  cases hpick : pick_host_binary name e.binDir with
  | none => exact Or.inr rfl
  | some b => exact Or.inl (by simp [runStep, hpick, hrun])

/-- Witness for C1's amended theorem: a two-benchmark batch where the
first fails benignly (missing directory) still yields one result per
benchmark and continues to the second. -/
theorem orchestrator_amended_witness :
    ∃ rs, mainLoop noMakeCfg [("NW", missingDirEnv), ("VA", vaGoodEnv)]
        = .ok rs ∧
      List.Forall₂ (fun (p : String × BenchEnv) (r : RunRes) =>
        processBench noMakeCfg p.1 p.2 = .ok r ∧ r.bench = p.1)
        [("NW", missingDirEnv), ("VA", vaGoodEnv)] rs :=
  (orchestrator_amended noMakeCfg [("NW", missingDirEnv), ("VA", vaGoodEnv)]
    (by
      intro p hp
      simp only [List.mem_cons, List.not_mem_nil, or_false] at hp
      rcases hp with rfl | rfl
      · exact ⟨⟨"NW", false, "missing dir"⟩, rfl⟩
      · exact ⟨⟨"VA", true, "found OK"⟩, rfl⟩)).1

end RunPrim
